import Mathlib

/-
Verification of the PostgreSQL-backed knowledge-graph memory store
(DatabaseKnowledgeGraphManager in src/index.ts together with the schema of
migrations/001_initial_schema.sql).

The database state is embedded shallowly: each table is a list of rows kept
in insertion order (insertion order models the created_at ordering used by
the ORDER BY created_at clauses), and the SERIAL id sequence of the
entities table is an explicit counter.  Each manager method becomes a pure
function on this state; the method that can throw (addObservations) returns
the post-transaction state paired with an Except value, and its catch
branch (ROLLBACK) returns the pre-call state, exactly as the source does.
-/

namespace MemPG

/-- An entity as exchanged with callers: name, type and observation contents. -/
structure Entity where
  name : String
  entityType : String
  observations : List String
deriving DecidableEq, Repr

/-- A relation as exchanged with callers.  The source field named from is
renamed fromName (from is a reserved word in Lean); to is renamed toName. -/
structure Relation where
  fromName : String
  toName : String
  relationType : String
deriving DecidableEq, Repr

/-- The graph view returned by readGraph, searchNodes and openNodes. -/
structure KnowledgeGraph where
  entities : List Entity
  relations : List Relation
deriving DecidableEq, Repr

/-- A row of the entities table (id SERIAL, name TEXT UNIQUE, entity_type TEXT). -/
structure EntityRow where
  id : Nat
  name : String
  entity_type : String
deriving DecidableEq, Repr

/-- A row of the observations table (entity_id REFERENCES entities, content TEXT). -/
structure ObservationRow where
  entity_id : Nat
  content : String
deriving DecidableEq, Repr

/-- A row of the relations table. -/
structure RelationRow where
  from_entity_id : Nat
  to_entity_id : Nat
  relation_type : String
deriving DecidableEq, Repr

/-- The database state: the three tables plus the entities id sequence.
Row lists are in insertion order, modelling created_at order. -/
structure Store where
  nextId : Nat
  entities : List EntityRow
  observations : List ObservationRow
  relations : List RelationRow
deriving DecidableEq, Repr

/-- A fresh database (SERIAL sequences start at 1). -/
def emptyStore : Store := ⟨1, [], [], []⟩

/-- SELECT id, name, entity_type FROM entities WHERE name = $1 (rows[0]). -/
def getEntityByName (s : Store) (name : String) : Option EntityRow :=
  s.entities.find? (fun e => e.name == name)

/-- SELECT content FROM observations WHERE entity_id = $1 ORDER BY created_at. -/
def getEntityObservations (s : Store) (entityId : Nat) : List String :=
  (s.observations.filter (fun o => o.entity_id == entityId)).map (fun o => o.content)

/-- The inserts one createEntities item performs when the name is fresh:
the entity row under the next SERIAL id, and one observation row per
listed content (no dedup check: the entity is new). -/
def insertEntity (s : Store) (e : Entity) : Store :=
  { s with
    nextId := s.nextId + 1,
    entities := s.entities ++ [⟨s.nextId, e.name, e.entityType⟩],
    observations := s.observations ++ e.observations.map (fun c => ⟨s.nextId, c⟩) }

/-- The loop body of createEntities: look each item up by name; when absent,
insert the entity row (RETURNING the fresh SERIAL id) and one observation row
per listed content, and report the item as newly created. -/
def createEntitiesLoop : Store → List Entity → Store × List Entity
  | s, [] => (s, [])
  | s, e :: rest =>
    match getEntityByName s e.name with
    | some _ => createEntitiesLoop s rest
    | none =>
      let p := createEntitiesLoop (insertEntity s e) rest
      (p.1, e :: p.2)

/-- createEntities: the whole batch runs in one transaction; no statement in
the sequential model can fail (every insert is guarded by the name lookup),
so the transaction always commits. -/
def createEntities (s : Store) (items : List Entity) : Store × List Entity :=
  createEntitiesLoop s items

/-- Number of stored rows matching the (from, to, relation_type) triple. -/
def tripleCount (s : Store) (fid tid : Nat) (ty : String) : Nat :=
  (s.relations.filter
    (fun r => r.from_entity_id == fid && r.to_entity_id == tid && r.relation_type == ty)).length

/-- INSERT INTO relations (from_entity_id, to_entity_id, relation_type). -/
def insertRelation (s : Store) (fid tid : Nat) (ty : String) : Store :=
  { s with relations := s.relations ++ [⟨fid, tid, ty⟩] }

/-- The loop body of createRelations: resolve both endpoints; if either is
missing, skip the item (console warning only); if the exact triple already
exists, skip; otherwise insert and report the item as newly created. -/
def createRelationsLoop : Store → List Relation → Store × List Relation
  | s, [] => (s, [])
  | s, r :: rest =>
    match getEntityByName s r.fromName, getEntityByName s r.toName with
    | some fe, some te =>
      if tripleCount s fe.id te.id r.relationType = 0 then
        let p := createRelationsLoop (insertRelation s fe.id te.id r.relationType) rest
        (p.1, r :: p.2)
      else createRelationsLoop s rest
    | _, _ => createRelationsLoop s rest

/-- createRelations: one transaction per batch, always commits in the
sequential model (the triple check guards the UNIQUE constraint). -/
def createRelations (s : Store) (items : List Relation) : Store × List Relation :=
  createRelationsLoop s items

/-- One input item of addObservations. -/
structure ObsItem where
  entityName : String
  contents : List String
deriving DecidableEq, Repr

/-- One result item of addObservations. -/
structure ObsResult where
  entityName : String
  addedObservations : List String
deriving DecidableEq, Repr

/-- The inserts one addObservations item performs: one observation row per
content string that survived the dedup filter. -/
def appendObservations (s : Store) (i : Nat) (cs : List String) : Store :=
  { s with observations := s.observations ++ cs.map (fun c => ⟨i, c⟩) }

/-- The loop body of addObservations: a missing entity throws (which the
caller turns into ROLLBACK); otherwise the contents not already present for
the entity are inserted and reported. -/
def addObservationsLoop : Store → List ObsItem → Except String (Store × List ObsResult)
  | s, [] => Except.ok (s, [])
  | s, it :: rest =>
    match getEntityByName s it.entityName with
    | none => Except.error ("Entity with name " ++ it.entityName ++ " not found")
    | some e =>
      let news := it.contents.filter
        (fun c => !((getEntityObservations s e.id).contains c))
      match addObservationsLoop (appendObservations s e.id news) rest with
      | Except.ok (s3, results) => Except.ok (s3, ⟨it.entityName, news⟩ :: results)
      | Except.error msg => Except.error msg

/-- addObservations: BEGIN, run the loop, COMMIT on success; on an exception
ROLLBACK restores the pre-call state and the error is re-raised. -/
def addObservations (s : Store) (items : List ObsItem) :
    Store × Except String (List ObsResult) :=
  match addObservationsLoop s items with
  | Except.ok (s2, results) => (s2, Except.ok results)
  | Except.error msg => (s, Except.error msg)

/-- DELETE FROM entities WHERE name = $1, with the schema cascade
(observations.entity_id and relations.from/to_entity_id are
REFERENCES entities(id) ON DELETE CASCADE). -/
def deleteEntityByName (s : Store) (name : String) : Store :=
  let ids := (s.entities.filter (fun e => e.name == name)).map (fun e => e.id)
  { s with
    entities := s.entities.filter (fun e => !(e.name == name)),
    observations := s.observations.filter (fun o => !(ids.contains o.entity_id)),
    relations := s.relations.filter
      (fun r => !(ids.contains r.from_entity_id) && !(ids.contains r.to_entity_id)) }

/-- deleteEntities: one DELETE per name inside one transaction. -/
def deleteEntities (s : Store) (names : List String) : Store :=
  names.foldl deleteEntityByName s

/-- One input item of deleteObservations. -/
structure DelObsItem where
  entityName : String
  observations : List String
deriving DecidableEq, Repr

/-- The per-item body of deleteObservations: look the entity up once; if it
exists, run one DELETE per listed content string. -/
def deleteObservationsItem (s : Store) (d : DelObsItem) : Store :=
  match getEntityByName s d.entityName with
  | none => s
  | some e =>
    d.observations.foldl
      (fun s2 content =>
        { s2 with
          observations :=
            s2.observations.filter (fun o => !(o.entity_id == e.id && o.content == content)) })
      s

/-- deleteObservations: one transaction per call. -/
def deleteObservations (s : Store) (items : List DelObsItem) : Store :=
  items.foldl deleteObservationsItem s

/-- The per-item body of deleteRelations: when both endpoints resolve,
delete the matching triple; otherwise do nothing. -/
def deleteRelationItem (s : Store) (r : Relation) : Store :=
  match getEntityByName s r.fromName, getEntityByName s r.toName with
  | some fe, some te =>
    { s with
      relations := s.relations.filter
        (fun row => !(row.from_entity_id == fe.id && row.to_entity_id == te.id &&
                      row.relation_type == r.relationType)) }
  | _, _ => s

/-- deleteRelations: one transaction per call. -/
def deleteRelations (s : Store) (items : List Relation) : Store :=
  items.foldl deleteRelationItem s

/-- SELECT ... FROM entities WHERE id lookup used by the JOINs below. -/
def findEntityById (s : Store) (id : Nat) : Option EntityRow :=
  s.entities.find? (fun e => e.id == id)

/-- The relation queries of readGraph and searchNodes JOIN relations to
entities twice to render endpoint names. -/
def joinRelations (s : Store) : List Relation :=
  s.relations.filterMap (fun r =>
    match findEntityById s r.from_entity_id, findEntityById s r.to_entity_id with
    | some a, some b => some ⟨a.name, b.name, r.relation_type⟩
    | _, _ => none)

instance entityRowLeDec :
    DecidableRel (fun a b : EntityRow => a.name ≤ b.name) :=
  fun a b => inferInstanceAs (Decidable (a.name ≤ b.name))

/-- ORDER BY e.name. -/
def sortEntities (l : List EntityRow) : List EntityRow :=
  l.insertionSort (fun a b => a.name ≤ b.name)

/-- The ORDER BY ef.name, et.name key of the relation queries. -/
def relationLe (a b : Relation) : Prop :=
  a.fromName < b.fromName ∨ (a.fromName = b.fromName ∧ a.toName ≤ b.toName)

instance relationLeDec : DecidableRel relationLe := fun a b => by
  unfold relationLe
  infer_instance

/-- ORDER BY ef.name, et.name. -/
def sortRelations (l : List Relation) : List Relation :=
  l.insertionSort relationLe

/-- Rendering of one entity row in a graph view: the aggregated observation
contents in created_at order (COALESCE(array_agg(...) ...)). -/
def entityToOutput (s : Store) (e : EntityRow) : Entity :=
  ⟨e.name, e.entity_type, getEntityObservations s e.id⟩

/-- readGraph: every entity with its observations, ordered by name, and
every relation rendered with endpoint names, ordered by (from, to). -/
def readGraph (s : Store) : KnowledgeGraph :=
  ⟨(sortEntities s.entities).map (entityToOutput s),
   sortRelations (joinRelations s)⟩

/-- SQL LIKE pattern matching over character lists: the percent wildcard
matches any substring (any terminal segment continuation), underscore
matches exactly one character, anything else matches itself.  Recursion is
structural on the pattern. -/
def likeMatch : List Char → List Char → Bool
  | [], t => t.isEmpty
  | '%' :: ps, t => (t.tails).any (fun u => likeMatch ps u)
  | '_' :: _, [] => false
  | '_' :: ps, _ :: cs => likeMatch ps cs
  | _ :: _, [] => false
  | p :: ps, c :: cs => (p == c) && likeMatch ps cs

/-- Postgres ILIKE: case-insensitive LIKE (both sides case-folded). -/
def ilike (text pattern : String) : Bool :=
  likeMatch (pattern.data.map Char.toLower) (text.data.map Char.toLower)

/-- The WHERE clause of the searchNodes entity query, for one entity row:
name ILIKE the percent-wrapped pattern, or entity_type ILIKE it, or the
full-text condition on the name, or some owned observation whose content
matches by ILIKE or by the full-text condition.  The Postgres full-text
match (to_tsvector matched by plainto_tsquery) is taken as a parameter
tsMatch: the claims about searchNodes hold for every such predicate. -/
def entityMatches (tsMatch : String → String → Bool) (s : Store) (query : String)
    (e : EntityRow) : Bool :=
  let pat := "%" ++ query ++ "%"
  ilike e.name pat || ilike e.entity_type pat || tsMatch e.name query ||
    s.observations.any (fun o =>
      o.entity_id == e.id && (ilike o.content pat || tsMatch o.content query))

/-- A conservative instance of the full-text parameter: matches nothing
(plainto_tsquery of an empty or all-punctuation string matches nothing;
concrete evaluations below only exercise the ILIKE branches). -/
def tsFalse : String → String → Bool := fun _ _ => false

/-- searchNodes: select the entities the WHERE clause matches (ordered by
name, with aggregated observations), then — unless no entity matched, in
which case the empty graph is returned early — the relations whose two
endpoint names are both in the matched name list (= ANY($1) on both ends). -/
def searchNodes (tsMatch : String → String → Bool) (s : Store) (query : String) :
    KnowledgeGraph :=
  let entities := (sortEntities (s.entities.filter (entityMatches tsMatch s query))).map
    (entityToOutput s)
  let entityNames := entities.map (fun e => e.name)
  if entityNames.length = 0 then ⟨[], []⟩
  else
    ⟨entities,
     sortRelations ((joinRelations s).filter
       (fun r => entityNames.contains r.fromName && entityNames.contains r.toName))⟩

/-- openNodes: empty input returns the empty graph without a query;
otherwise the named entities and the induced relations. -/
def openNodes (s : Store) (names : List String) : KnowledgeGraph :=
  if names.length = 0 then ⟨[], []⟩
  else
    ⟨(sortEntities (s.entities.filter (fun e => names.contains e.name))).map
       (entityToOutput s),
     sortRelations ((joinRelations s).filter
       (fun r => names.contains r.fromName && names.contains r.toName))⟩

/-- One store mutation call, used to describe reachable states. -/
inductive Op where
  | createEntities (items : List Entity)
  | createRelations (items : List Relation)
  | addObservations (items : List ObsItem)
  | deleteEntities (names : List String)
  | deleteObservations (items : List DelObsItem)
  | deleteRelations (items : List Relation)
deriving Repr

/-- The state after one call (for addObservations, the state the caller
observes afterwards, i.e. after COMMIT or ROLLBACK). -/
def applyOp (s : Store) : Op → Store
  | Op.createEntities items => (createEntities s items).1
  | Op.createRelations items => (createRelations s items).1
  | Op.addObservations items => (addObservations s items).1
  | Op.deleteEntities names => deleteEntities s names
  | Op.deleteObservations items => deleteObservations s items
  | Op.deleteRelations items => deleteRelations s items

/-- Running a sequence of calls from a state. -/
def runOps (s : Store) : List Op → Store
  | [] => s
  | op :: rest => runOps (applyOp s op) rest

/-- A state is reachable when some call sequence produces it from a fresh
database. -/
def Reachable (s : Store) : Prop :=
  ∃ ops : List Op, runOps emptyStore ops = s

/-- An input batch has duplicate-free observation lists: no create_entities
item repeats a content string inside its observations array, and no
add_observations item repeats one inside its contents array. -/
def GoodOp : Op → Prop
  | Op.createEntities items => ∀ e ∈ items, e.observations.Nodup
  | Op.addObservations items => ∀ it ∈ items, it.contents.Nodup
  | _ => True

/-- Literal (case-sensitive) substring occurrence, used to state what a
query containing LIKE metacharacters does NOT literally match. -/
def containsSubstr (hay needle : String) : Bool :=
  (hay.data.tails).any (fun t => needle.data.isPrefixOf t)

/-- The observation contents a list of observation rows stores for one
entity id, in row order (getEntityObservations seen as a pure function of
the observations table). -/
def obsFor (l : List ObservationRow) (i : Nat) : List String :=
  (l.filter (fun o => o.entity_id == i)).map (fun o => o.content)

/-- Structural well-formedness of a store: every stored id is below the id
sequence, and no entity id owns the same observation content twice.  The
last conjunct is the per-entity set semantics of observation contents. -/
def Inv (s : Store) : Prop :=
  (∀ e ∈ s.entities, e.id < s.nextId) ∧
  (∀ o ∈ s.observations, o.entity_id < s.nextId) ∧
  (∀ i : Nat, (obsFor s.observations i).Nodup)

end MemPG

namespace MemPG

/- Helper lemmas about the lookups. -/

lemma getEntityByName_congr {s1 s2 : Store} (h : s1.entities = s2.entities) (n : String) :
    getEntityByName s1 n = getEntityByName s2 n := by
  unfold getEntityByName
  rw [h]

lemma getEntityObservations_congr {s1 s2 : Store} (h : s1.observations = s2.observations)
    (i : Nat) : getEntityObservations s1 i = getEntityObservations s2 i := by
  unfold getEntityObservations
  rw [h]

lemma getEntityObservations_eq_obsFor (s : Store) (i : Nat) :
    getEntityObservations s i = obsFor s.observations i := rfl

lemma find?_name_append (l : List EntityRow) (row : EntityRow) (n : String) :
    (l ++ [row]).find? (fun e => e.name == n)
      = ((l.find? (fun e => e.name == n)).or
          (cond (row.name == n) (some row) none)) := by
  rw [List.find?_append]
  rfl

lemma mem_entities_of_getEntityByName {s : Store} {n : String} {row : EntityRow}
    (h : getEntityByName s n = some row) : row ∈ s.entities ∧ row.name = n := by
  unfold getEntityByName at h
  refine ⟨List.mem_of_find?_eq_some h, ?_⟩
  have := List.find?_some h
  simpa using this

lemma getEntityByName_eq_none {s : Store} {n : String} :
    getEntityByName s n = none ↔ ∀ row ∈ s.entities, row.name ≠ n := by
  unfold getEntityByName
  simp [List.find?_eq_none]

/- Step lemmas for the createEntities loop. -/

lemma createEntitiesLoop_cons_new {s : Store} {e : Entity} (rest : List Entity)
    (h : getEntityByName s e.name = none) :
    createEntitiesLoop s (e :: rest)
      = ((createEntitiesLoop (insertEntity s e) rest).1,
         e :: (createEntitiesLoop (insertEntity s e) rest).2) := by
  show (match getEntityByName s e.name with
    | some _ => createEntitiesLoop s rest
    | none =>
      let p := createEntitiesLoop (insertEntity s e) rest
      (p.1, e :: p.2)) = _
  rw [h]

lemma createEntitiesLoop_cons_existing {s : Store} {e : Entity} {row : EntityRow}
    (rest : List Entity) (h : getEntityByName s e.name = some row) :
    createEntitiesLoop s (e :: rest) = createEntitiesLoop s rest := by
  show (match getEntityByName s e.name with
    | some _ => createEntitiesLoop s rest
    | none =>
      let p := createEntitiesLoop (insertEntity s e) rest
      (p.1, e :: p.2)) = _
  rw [h]

lemma createEntities_single_new {s : Store} {e : Entity}
    (h : getEntityByName s e.name = none) :
    createEntities s [e] = (insertEntity s e, [e]) := by
  unfold createEntities
  rw [createEntitiesLoop_cons_new [] h]
  rfl

lemma createEntities_single_existing {s : Store} {e : Entity} {row : EntityRow}
    (h : getEntityByName s e.name = some row) :
    createEntities s [e] = (s, []) := by
  unfold createEntities
  rw [createEntitiesLoop_cons_existing [] h]
  rfl

lemma getEntityByName_insertEntity (s : Store) (e : Entity) (n : String) :
    getEntityByName (insertEntity s e) n
      = ((getEntityByName s n).or
          (cond (e.name == n) (some ⟨s.nextId, e.name, e.entityType⟩) none)) := by
  unfold getEntityByName insertEntity
  exact find?_name_append s.entities ⟨s.nextId, e.name, e.entityType⟩ n

/-- C8: the ROLLBACK branch of addObservations restores the pre-call
state: when the batch raises, the store the caller observes afterwards is
the store from before the call, so no partially-applied batch is visible.
addObservations is the only modelled operation with an exception path: in
the sequential embedding every other mutation guards each insert with the
corresponding existence or duplicate check inside the same transaction, so
no statement of theirs can fail. -/
theorem C8_mutation_atomicity (s : Store) (items : List ObsItem) (msg : String)
    (h : (addObservations s items).2 = Except.error msg) :
    (addObservations s items).1 = s := by
  unfold addObservations at h ⊢
  cases hl : addObservationsLoop s items with
  | ok p =>
    obtain ⟨s2, res⟩ := p
    rw [hl] at h
    simp at h
  | error e => rfl

theorem C8_mutation_atomicity_witness :
    (addObservations emptyStore [⟨"ghost", ["x"]⟩]).2
        = Except.error "Entity with name ghost not found" ∧
      (addObservations emptyStore [⟨"ghost", ["x"]⟩]).1 = emptyStore :=
  ⟨rfl, C8_mutation_atomicity emptyStore [⟨"ghost", ["x"]⟩]
    "Entity with name ghost not found" rfl⟩

/-- C10: the query string is interpolated into the LIKE pattern unescaped,
so percent and underscore act as wildcards: with the single stored entity
named ab of type t (and no observations), the query consisting of one
percent sign, and the query a followed by underscore, are both returned as
matches although neither query occurs literally in the name or the type. -/
theorem C10_unescaped_like_metacharacters :
    (searchNodes tsFalse (createEntities emptyStore [⟨"ab", "t", []⟩]).1 "%"
          = ⟨[⟨"ab", "t", []⟩], []⟩
        ∧ containsSubstr "ab" "%" = false ∧ containsSubstr "t" "%" = false)
      ∧ (searchNodes tsFalse (createEntities emptyStore [⟨"ab", "t", []⟩]).1 "a_"
          = ⟨[⟨"ab", "t", []⟩], []⟩
        ∧ containsSubstr "ab" "a_" = false ∧ containsSubstr "t" "a_" = false) := by
  decide

lemma createEntitiesLoop_skip_all (s : Store) (items : List Entity)
    (h : ∀ x ∈ items, (getEntityByName s x.name).isSome = true) :
    createEntitiesLoop s items = (s, []) := by
  induction items with
  | nil => rfl
  | cons e rest ih =>
    cases he : getEntityByName s e.name with
    | none =>
      have := h e (by simp)
      rw [he] at this
      simp at this
    | some r =>
      rw [createEntitiesLoop_cons_existing rest he]
      exact ih (fun x hx => h x (by simp [hx]))

/-- C9: inside one createEntities batch the per-item lookup sees the rows
inserted earlier in the same transaction, so a repeated fresh name is
created once and every later item carrying it is skipped. -/
theorem C9_duplicate_names_within_batch (s : Store) (e : Entity) (items : List Entity)
    (h : getEntityByName s e.name = none) (hall : ∀ x ∈ items, x.name = e.name) :
    createEntities s (e :: items) = ((createEntities s [e]).1, [e]) := by
  have hloop : createEntitiesLoop (insertEntity s e) items = (insertEntity s e, []) := by
    refine createEntitiesLoop_skip_all _ items (fun x hx => ?_)
    rw [getEntityByName_insertEntity, hall x hx, h]
    simp
  unfold createEntities
  rw [createEntitiesLoop_cons_new items h, hloop, createEntitiesLoop_cons_new [] h]
  rfl

theorem C9_duplicate_names_within_batch_witness :
    createEntities emptyStore [⟨"A", "t", []⟩, ⟨"A", "u", ["z"]⟩]
      = ((createEntities emptyStore [⟨"A", "t", []⟩]).1, [⟨"A", "t", []⟩]) :=
  C9_duplicate_names_within_batch emptyStore ⟨"A", "t", []⟩ [⟨"A", "u", ["z"]⟩] rfl
    (by decide)

/- Step lemmas for the createRelations loop. -/

lemma createRelationsLoop_cons_insert {s : Store} {r : Relation} {fe te : EntityRow}
    (rest : List Relation)
    (hf : getEntityByName s r.fromName = some fe)
    (ht : getEntityByName s r.toName = some te)
    (h0 : tripleCount s fe.id te.id r.relationType = 0) :
    createRelationsLoop s (r :: rest)
      = ((createRelationsLoop (insertRelation s fe.id te.id r.relationType) rest).1,
         r :: (createRelationsLoop (insertRelation s fe.id te.id r.relationType) rest).2) := by
  show (match getEntityByName s r.fromName, getEntityByName s r.toName with
    | some fe, some te =>
      if tripleCount s fe.id te.id r.relationType = 0 then
        let p := createRelationsLoop (insertRelation s fe.id te.id r.relationType) rest
        (p.1, r :: p.2)
      else createRelationsLoop s rest
    | _, _ => createRelationsLoop s rest) = _
  rw [hf, ht]
  dsimp only
  rw [if_pos h0]

lemma createRelationsLoop_cons_dup {s : Store} {r : Relation} {fe te : EntityRow}
    (rest : List Relation)
    (hf : getEntityByName s r.fromName = some fe)
    (ht : getEntityByName s r.toName = some te)
    (h1 : tripleCount s fe.id te.id r.relationType ≠ 0) :
    createRelationsLoop s (r :: rest) = createRelationsLoop s rest := by
  show (match getEntityByName s r.fromName, getEntityByName s r.toName with
    | some fe, some te =>
      if tripleCount s fe.id te.id r.relationType = 0 then
        let p := createRelationsLoop (insertRelation s fe.id te.id r.relationType) rest
        (p.1, r :: p.2)
      else createRelationsLoop s rest
    | _, _ => createRelationsLoop s rest) = _
  rw [hf, ht]
  dsimp only
  rw [if_neg h1]

lemma createRelationsLoop_cons_missing {s : Store} {r : Relation}
    (rest : List Relation)
    (h : getEntityByName s r.fromName = none ∨ getEntityByName s r.toName = none) :
    createRelationsLoop s (r :: rest) = createRelationsLoop s rest := by
  show (match getEntityByName s r.fromName, getEntityByName s r.toName with
    | some fe, some te =>
      if tripleCount s fe.id te.id r.relationType = 0 then
        let p := createRelationsLoop (insertRelation s fe.id te.id r.relationType) rest
        (p.1, r :: p.2)
      else createRelationsLoop s rest
    | _, _ => createRelationsLoop s rest) = _
  cases hf : getEntityByName s r.fromName with
  | none => rfl
  | some fe =>
    cases ht : getEntityByName s r.toName with
    | none => rfl
    | some te =>
      rw [hf, ht] at h
      rcases h with h | h <;> exact absurd h (by simp)

lemma tripleCount_insertRelation (s : Store) (a b : Nat) (ty : String) :
    tripleCount (insertRelation s a b ty) a b ty = tripleCount s a b ty + 1 := by
  unfold tripleCount insertRelation
  simp [List.filter_append]

/-- C5: createEntities returns an order-preserving subset of its input;
an item whose name already exists is skipped with the whole store
untouched; a repeated single-item call is a no-op returning the empty
created-list even when the repeat carries a different type; and a fresh
creation stores the item under the entity type of the creating call. -/
theorem C5_create_entities_skip_semantics :
    (∀ (s : Store) (items : List Entity), ((createEntities s items).2).Sublist items)
    ∧ (∀ (s : Store) (n t : String) (os : List String) (row : EntityRow),
        getEntityByName s n = some row → createEntities s [⟨n, t, os⟩] = (s, []))
    ∧ (∀ (s : Store) (e e2 : Entity), e2.name = e.name →
        createEntities (createEntities s [e]).1 [e2] = ((createEntities s [e]).1, []))
    ∧ (∀ (s : Store) (e : Entity), getEntityByName s e.name = none →
        getEntityByName (createEntities s [e]).1 e.name
          = some ⟨s.nextId, e.name, e.entityType⟩) := by
  have sub : ∀ (items : List Entity) (s : Store),
      ((createEntitiesLoop s items).2).Sublist items := by
    intro items
    induction items with
    | nil => intro s; exact List.Sublist.refl []
    | cons e rest ih =>
      intro s
      cases he : getEntityByName s e.name with
      | some row =>
        rw [createEntitiesLoop_cons_existing rest he]
        exact (ih s).trans (List.sublist_cons_self e rest)
      | none =>
        rw [createEntitiesLoop_cons_new rest he]
        exact List.Sublist.cons₂ e (ih (insertEntity s e))
  refine ⟨fun s items => sub items s, ?_, ?_, ?_⟩
  · intro s n t os row h
    exact createEntities_single_existing h
  · intro s e e2 hname
    cases he : getEntityByName s e.name with
    | some row =>
      rw [createEntities_single_existing he]
      exact createEntities_single_existing (hname ▸ he)
    | none =>
      rw [createEntities_single_new he]
      have hlook : getEntityByName (insertEntity s e) e2.name
          = some ⟨s.nextId, e.name, e.entityType⟩ := by
        rw [getEntityByName_insertEntity, hname, he]
        simp
      exact createEntities_single_existing hlook
  · intro s e he
    rw [createEntities_single_new he]
    show getEntityByName (insertEntity s e) e.name = _
    rw [getEntityByName_insertEntity, he]
    simp

theorem C5_create_entities_skip_semantics_witness :
    createEntities
        (createEntities emptyStore [⟨"A", "t", ["x"]⟩]).1 [⟨"A", "u", []⟩]
      = ((createEntities emptyStore [⟨"A", "t", ["x"]⟩]).1, [])
    ∧ getEntityByName (createEntities emptyStore [⟨"A", "t", ["x"]⟩]).1 "A"
      = some ⟨1, "A", "t"⟩ :=
  ⟨C5_create_entities_skip_semantics.2.2.1 emptyStore ⟨"A", "t", ["x"]⟩ ⟨"A", "u", []⟩ rfl,
   C5_create_entities_skip_semantics.2.2.2 emptyStore ⟨"A", "t", ["x"]⟩ rfl⟩

/-- C4: a relation whose endpoints resolve and whose triple is absent is
inserted and reported once even when submitted twice in one batch; the
duplicate row count afterwards is exactly one; a sequential resubmission is
skipped and reported as not newly created; and an item with a missing
endpoint is skipped without error, leaving the store untouched. -/
theorem C4_create_relations_idempotent :
    (∀ (s : Store) (r : Relation) (fe te : EntityRow),
        getEntityByName s r.fromName = some fe →
        getEntityByName s r.toName = some te →
        tripleCount s fe.id te.id r.relationType = 0 →
          createRelations s [r, r] = ((createRelations s [r]).1, [r])
          ∧ tripleCount (createRelations s [r]).1 fe.id te.id r.relationType = 1
          ∧ createRelations (createRelations s [r]).1 [r]
              = ((createRelations s [r]).1, []))
    ∧ (∀ (s : Store) (r : Relation),
        getEntityByName s r.fromName = none ∨ getEntityByName s r.toName = none →
        createRelations s [r] = (s, [])) := by
  constructor
  · intro s r fe te hf ht h0
    have hsingle : createRelations s [r]
        = (insertRelation s fe.id te.id r.relationType, [r]) := by
      unfold createRelations
      rw [createRelationsLoop_cons_insert [] hf ht h0]
      rfl
    have hf1 : getEntityByName (insertRelation s fe.id te.id r.relationType) r.fromName
        = some fe :=
      (getEntityByName_congr
        (rfl : (insertRelation s fe.id te.id r.relationType).entities = s.entities)
        r.fromName).trans hf
    have ht1 : getEntityByName (insertRelation s fe.id te.id r.relationType) r.toName
        = some te :=
      (getEntityByName_congr
        (rfl : (insertRelation s fe.id te.id r.relationType).entities = s.entities)
        r.toName).trans ht
    have h1 : tripleCount (insertRelation s fe.id te.id r.relationType)
        fe.id te.id r.relationType = 1 := by
      rw [tripleCount_insertRelation, h0]
    have hdup : createRelationsLoop (insertRelation s fe.id te.id r.relationType) [r]
        = (insertRelation s fe.id te.id r.relationType, []) := by
      rw [createRelationsLoop_cons_dup [] hf1 ht1 (by rw [h1]; exact one_ne_zero)]
      rfl
    refine ⟨?_, ?_, ?_⟩
    · unfold createRelations
      rw [createRelationsLoop_cons_insert [r] hf ht h0, hdup]
      unfold createRelations at hsingle
      rw [hsingle]
    · rw [hsingle]
      exact h1
    · rw [hsingle]
      unfold createRelations
      rw [hdup]
  · intro s r h
    unfold createRelations
    rw [createRelationsLoop_cons_missing [] h]
    rfl

theorem C4_create_relations_idempotent_witness :
    (createRelations (createEntities emptyStore [⟨"A", "t", []⟩, ⟨"B", "t", []⟩]).1
        [⟨"A", "B", "knows"⟩, ⟨"A", "B", "knows"⟩]
      = ((createRelations (createEntities emptyStore [⟨"A", "t", []⟩, ⟨"B", "t", []⟩]).1
            [⟨"A", "B", "knows"⟩]).1, [⟨"A", "B", "knows"⟩])
    ∧ tripleCount
        (createRelations (createEntities emptyStore [⟨"A", "t", []⟩, ⟨"B", "t", []⟩]).1
          [⟨"A", "B", "knows"⟩]).1 1 2 "knows" = 1
    ∧ createRelations
        (createRelations (createEntities emptyStore [⟨"A", "t", []⟩, ⟨"B", "t", []⟩]).1
          [⟨"A", "B", "knows"⟩]).1 [⟨"A", "B", "knows"⟩]
      = ((createRelations (createEntities emptyStore [⟨"A", "t", []⟩, ⟨"B", "t", []⟩]).1
            [⟨"A", "B", "knows"⟩]).1, []))
    ∧ createRelations (createEntities emptyStore [⟨"A", "t", []⟩, ⟨"B", "t", []⟩]).1
        [⟨"A", "C", "x"⟩]
      = ((createEntities emptyStore [⟨"A", "t", []⟩, ⟨"B", "t", []⟩]).1, []) :=
  ⟨C4_create_relations_idempotent.1
      (createEntities emptyStore [⟨"A", "t", []⟩, ⟨"B", "t", []⟩]).1
      ⟨"A", "B", "knows"⟩ ⟨1, "A", "t"⟩ ⟨2, "B", "t"⟩ (by decide) (by decide) (by decide),
   C4_create_relations_idempotent.2
      (createEntities emptyStore [⟨"A", "t", []⟩, ⟨"B", "t", []⟩]).1
      ⟨"A", "C", "x"⟩ (Or.inr (by decide))⟩



/- Lemmas about deletion. -/

lemma deleteEntityByName_shrink (s : Store) (n : String) :
    (∀ x ∈ (deleteEntityByName s n).entities, x ∈ s.entities)
    ∧ (∀ o ∈ (deleteEntityByName s n).observations, o ∈ s.observations)
    ∧ (∀ r ∈ (deleteEntityByName s n).relations, r ∈ s.relations) := by
  unfold deleteEntityByName
  exact ⟨fun x hx => (List.mem_filter.1 hx).1,
         fun o ho => (List.mem_filter.1 ho).1,
         fun r hr => (List.mem_filter.1 hr).1⟩

lemma deleteEntities_cons (s : Store) (m : String) (rest : List String) :
    deleteEntities s (m :: rest) = deleteEntities (deleteEntityByName s m) rest := rfl

lemma deleteEntities_shrink : ∀ (names : List String) (s : Store),
    (∀ x ∈ (deleteEntities s names).entities, x ∈ s.entities)
    ∧ (∀ o ∈ (deleteEntities s names).observations, o ∈ s.observations)
    ∧ (∀ r ∈ (deleteEntities s names).relations, r ∈ s.relations) := by
  intro names
  induction names with
  | nil => exact fun s => ⟨fun x hx => hx, fun o ho => ho, fun r hr => hr⟩
  | cons m rest ih =>
    intro s
    rw [deleteEntities_cons]
    obtain ⟨i1, i2, i3⟩ := ih (deleteEntityByName s m)
    obtain ⟨d1, d2, d3⟩ := deleteEntityByName_shrink s m
    exact ⟨fun x hx => d1 x (i1 x hx), fun o ho => d2 o (i2 o ho),
           fun r hr => d3 r (i3 r hr)⟩

lemma deleteEntityByName_kill (s : Store) (n : String) :
    (∀ row ∈ (deleteEntityByName s n).entities, row.name ≠ n)
    ∧ (∀ r ∈ s.entities, r.name = n →
        (∀ o ∈ (deleteEntityByName s n).observations, o.entity_id ≠ r.id)
        ∧ (∀ rel ∈ (deleteEntityByName s n).relations,
            rel.from_entity_id ≠ r.id ∧ rel.to_entity_id ≠ r.id)) := by
  unfold deleteEntityByName
  constructor
  · intro row hrow
    have := (List.mem_filter.1 hrow).2
    simpa using this
  · intro r hr hname
    have hid : r.id ∈ (s.entities.filter (fun e => e.name == n)).map (fun e => e.id) :=
      List.mem_map.2 ⟨r, List.mem_filter.2 ⟨hr, by simp [hname]⟩, rfl⟩
    constructor
    · intro o ho
      have hpred := (List.mem_filter.1 ho).2
      intro hcontra
      have hmem : o.entity_id ∈ (s.entities.filter (fun e => e.name == n)).map
          (fun e => e.id) := hcontra ▸ hid
      have hc : ((s.entities.filter (fun e => e.name == n)).map
          (fun e => e.id)).contains o.entity_id = true := List.elem_iff.2 hmem
      rw [hc] at hpred
      simp at hpred
    · intro rel hrel
      have hpred := (List.mem_filter.1 hrel).2
      rw [Bool.and_eq_true] at hpred
      obtain ⟨t1, t2⟩ := hpred
      constructor
      · intro hcontra
        have hmem : rel.from_entity_id ∈ (s.entities.filter (fun e => e.name == n)).map
            (fun e => e.id) := hcontra ▸ hid
        have hc : ((s.entities.filter (fun e => e.name == n)).map
            (fun e => e.id)).contains rel.from_entity_id = true := List.elem_iff.2 hmem
        rw [hc] at t1
        simp at t1
      · intro hcontra
        have hmem : rel.to_entity_id ∈ (s.entities.filter (fun e => e.name == n)).map
            (fun e => e.id) := hcontra ▸ hid
        have hc : ((s.entities.filter (fun e => e.name == n)).map
            (fun e => e.id)).contains rel.to_entity_id = true := List.elem_iff.2 hmem
        rw [hc] at t2
        simp at t2

lemma deleteEntities_cascade : ∀ (names : List String) (s : Store) (n : String),
    n ∈ names →
    (∀ row ∈ (deleteEntities s names).entities, row.name ≠ n)
    ∧ (∀ r ∈ s.entities, r.name = n →
        (∀ o ∈ (deleteEntities s names).observations, o.entity_id ≠ r.id)
        ∧ (∀ rel ∈ (deleteEntities s names).relations,
            rel.from_entity_id ≠ r.id ∧ rel.to_entity_id ≠ r.id)) := by
  intro names
  induction names with
  | nil => intro s n hn; cases hn
  | cons m rest ih =>
    intro s n hn
    rw [deleteEntities_cons]
    by_cases hnm : n = m
    · subst hnm
      obtain ⟨k1, k2⟩ := deleteEntityByName_kill s n
      obtain ⟨f1, f2, f3⟩ := deleteEntities_shrink rest (deleteEntityByName s n)
      constructor
      · intro row hrow
        exact k1 row (f1 row hrow)
      · intro r hr hname
        obtain ⟨o1, o2⟩ := k2 r hr hname
        exact ⟨fun o ho => o1 o (f2 o ho),
               fun rel hrel => o2 rel (f3 rel hrel)⟩
    · have hn2 : n ∈ rest := by
        cases List.mem_cons.1 hn with
        | inl h => exact absurd h hnm
        | inr h => exact h
      obtain ⟨h1, h2⟩ := ih (deleteEntityByName s m) n hn2
      refine ⟨h1, ?_⟩
      intro r hr hname
      have hr1 : r ∈ (deleteEntityByName s m).entities := by
        unfold deleteEntityByName
        refine List.mem_filter.2 ⟨hr, ?_⟩
        simp [hname]
        exact hnm
      exact h2 r hr1 hname

lemma mem_readGraph_entities {s : Store} {e : Entity}
    (h : e ∈ (readGraph s).entities) :
    ∃ row ∈ s.entities, e = entityToOutput s row := by
  unfold readGraph at h
  obtain ⟨row, hrow, hout⟩ := List.mem_map.1 h
  refine ⟨row, ?_, hout.symm⟩
  unfold sortEntities at hrow
  exact (List.mem_insertionSort _).1 hrow

lemma mem_joinRelations {s : Store} {rel : Relation} (h : rel ∈ joinRelations s) :
    ∃ a ∈ s.entities, ∃ b ∈ s.entities, a.name = rel.fromName ∧ b.name = rel.toName := by
  unfold joinRelations at h
  obtain ⟨rrow, hmem, hf⟩ := List.mem_filterMap.1 h
  cases hfa : findEntityById s rrow.from_entity_id with
  | none => rw [hfa] at hf; simp at hf
  | some a =>
    cases hfb : findEntityById s rrow.to_entity_id with
    | none => rw [hfa, hfb] at hf; simp at hf
    | some b =>
      rw [hfa, hfb] at hf
      simp only [Option.some.injEq] at hf
      have ha : a ∈ s.entities := List.mem_of_find?_eq_some hfa
      have hb : b ∈ s.entities := List.mem_of_find?_eq_some hfb
      exact ⟨a, ha, b, hb, by rw [← hf], by rw [← hf]⟩

lemma mem_readGraph_relations {s : Store} {rel : Relation}
    (h : rel ∈ (readGraph s).relations) :
    ∃ a ∈ s.entities, ∃ b ∈ s.entities, a.name = rel.fromName ∧ b.name = rel.toName := by
  unfold readGraph at h
  apply mem_joinRelations
  unfold sortRelations at h
  exact (List.mem_insertionSort _).1 h

/-- C6: deleting a list of entity names removes, for every name in the
list, the entity rows carrying it together with every observation row it
owned and every relation row it touched (the schema cascade); readGraph on
the resulting store shows neither the entity nor any relation naming it; a
later create_relations naming it skips; deleting a name with no entity is
a no-op on the store, and no delete raises an error (the operation is
total). -/
theorem C6_delete_entities_cascade :
    (∀ (s : Store) (names : List String) (n : String), n ∈ names →
      (∀ row ∈ (deleteEntities s names).entities, row.name ≠ n)
      ∧ (∀ r ∈ s.entities, r.name = n →
          (∀ o ∈ (deleteEntities s names).observations, o.entity_id ≠ r.id)
          ∧ (∀ rel ∈ (deleteEntities s names).relations,
              rel.from_entity_id ≠ r.id ∧ rel.to_entity_id ≠ r.id))
      ∧ (∀ e ∈ (readGraph (deleteEntities s names)).entities, e.name ≠ n)
      ∧ (∀ rel ∈ (readGraph (deleteEntities s names)).relations,
          rel.fromName ≠ n ∧ rel.toName ≠ n)
      ∧ (∀ x t, createRelations (deleteEntities s names) [⟨n, x, t⟩]
            = (deleteEntities s names, [])
          ∧ createRelations (deleteEntities s names) [⟨x, n, t⟩]
            = (deleteEntities s names, [])))
    ∧ (∀ (s : Store) (n : String), getEntityByName s n = none →
        deleteEntityByName s n = s) := by
  constructor
  · intro s names n hn
    obtain ⟨h1, h2⟩ := deleteEntities_cascade names s n hn
    have hnone : getEntityByName (deleteEntities s names) n = none :=
      getEntityByName_eq_none.2 h1
    refine ⟨h1, h2, ?_, ?_, ?_⟩
    · intro e he
      obtain ⟨row, hrow, hout⟩ := mem_readGraph_entities he
      rw [hout]
      exact h1 row hrow
    · intro rel hrel
      obtain ⟨a, ha, b, hb, hna, hnb⟩ := mem_readGraph_relations hrel
      exact ⟨hna ▸ h1 a ha, hnb ▸ h1 b hb⟩
    · intro x t
      constructor
      · unfold createRelations
        rw [createRelationsLoop_cons_missing [] (Or.inl hnone)]
        rfl
      · unfold createRelations
        rw [createRelationsLoop_cons_missing [] (Or.inr hnone)]
        rfl
  · intro s n h
    have hall := getEntityByName_eq_none.1 h
    have hids : (s.entities.filter (fun e => e.name == n)).map (fun e => e.id)
        = ([] : List Nat) := by
      rw [List.filter_eq_nil_iff.2 (fun e he => by simp [hall e he])]
      rfl
    have h1 : s.entities.filter (fun e => !(e.name == n)) = s.entities :=
      List.filter_eq_self.2 (fun e he => by simp [hall e he])
    unfold deleteEntityByName
    rw [hids, h1]
    have h2 : s.observations.filter
        (fun o => !(List.contains ([] : List Nat) o.entity_id)) = s.observations :=
      List.filter_eq_self.2 (fun o _ => rfl)
    have h3 : s.relations.filter
        (fun r => !(List.contains ([] : List Nat) r.from_entity_id)
          && !(List.contains ([] : List Nat) r.to_entity_id)) = s.relations :=
      List.filter_eq_self.2 (fun r _ => rfl)
    dsimp only
    rw [h2, h3]

theorem C6_delete_entities_cascade_witness :
    (∀ row ∈ (deleteEntities
        (createRelations (createEntities emptyStore
            [⟨"A", "t", ["x"]⟩, ⟨"B", "t", []⟩]).1 [⟨"A", "B", "knows"⟩]).1
        ["A"]).entities, row.name ≠ "A")
    ∧ deleteEntityByName emptyStore "Z" = emptyStore :=
  ⟨(C6_delete_entities_cascade.1
      (createRelations (createEntities emptyStore
          [⟨"A", "t", ["x"]⟩, ⟨"B", "t", []⟩]).1 [⟨"A", "B", "knows"⟩]).1
      ["A"] "A" (by decide)).1,
   C6_delete_entities_cascade.2 emptyStore "Z" rfl⟩


/- Step lemmas for the addObservations loop. -/

lemma addObservationsLoop_cons_missing {s : Store} {it : ObsItem} (rest : List ObsItem)
    (h : getEntityByName s it.entityName = none) :
    addObservationsLoop s (it :: rest)
      = Except.error ("Entity with name " ++ it.entityName ++ " not found") := by
  show (match getEntityByName s it.entityName with
    | none => Except.error ("Entity with name " ++ it.entityName ++ " not found")
    | some e =>
      let news := it.contents.filter
        (fun c => !((getEntityObservations s e.id).contains c))
      match addObservationsLoop (appendObservations s e.id news) rest with
      | Except.ok (s3, results) =>
          Except.ok (s3, (⟨it.entityName, news⟩ : ObsResult) :: results)
      | Except.error msg => Except.error msg) = _
  rw [h]

lemma addObservationsLoop_cons_found {s : Store} {it : ObsItem} {e : EntityRow}
    (rest : List ObsItem) (h : getEntityByName s it.entityName = some e) :
    addObservationsLoop s (it :: rest)
      = (match addObservationsLoop
            (appendObservations s e.id (it.contents.filter
              (fun c => !((getEntityObservations s e.id).contains c)))) rest with
         | Except.ok (s3, results) =>
             Except.ok (s3, (⟨it.entityName, it.contents.filter
               (fun c => !((getEntityObservations s e.id).contains c))⟩ : ObsResult)
                 :: results)
         | Except.error msg => Except.error msg) := by
  show (match getEntityByName s it.entityName with
    | none => Except.error ("Entity with name " ++ it.entityName ++ " not found")
    | some e =>
      let news := it.contents.filter
        (fun c => !((getEntityObservations s e.id).contains c))
      match addObservationsLoop (appendObservations s e.id news) rest with
      | Except.ok (s3, results) =>
          Except.ok (s3, (⟨it.entityName, news⟩ : ObsResult) :: results)
      | Except.error msg => Except.error msg) = _
  rw [h]

lemma appendObservations_entities (s : Store) (i : Nat) (cs : List String) :
    (appendObservations s i cs).entities = s.entities := rfl

lemma addObservationsLoop_error_iff : ∀ (items : List ObsItem) (s : Store),
    (∃ msg, addObservationsLoop s items = Except.error msg)
      ↔ ∃ it ∈ items, getEntityByName s it.entityName = none := by
  intro items
  induction items with
  | nil =>
    intro s
    constructor
    · rintro ⟨msg, hmsg⟩
      exact absurd hmsg (by simp [addObservationsLoop])
    · rintro ⟨it, hit, _⟩
      cases hit
  | cons it rest ih =>
    intro s
    cases he : getEntityByName s it.entityName with
    | none =>
      constructor
      · intro _
        exact ⟨it, by simp, he⟩
      · intro _
        exact ⟨_, addObservationsLoop_cons_missing rest he⟩
    | some e =>
      rw [addObservationsLoop_cons_found rest he]
      constructor
      · rintro ⟨msg, hmsg⟩
        cases hl : addObservationsLoop (appendObservations s e.id (it.contents.filter
            (fun c => !((getEntityObservations s e.id).contains c)))) rest with
        | ok p =>
          obtain ⟨s3, res⟩ := p
          rw [hl] at hmsg
          simp at hmsg
        | error m =>
          obtain ⟨x, hx, hnone⟩ := (ih _).1 ⟨m, hl⟩
          refine ⟨x, by simp [hx], ?_⟩
          rw [← getEntityByName_congr
            (appendObservations_entities s e.id (it.contents.filter
              (fun c => !((getEntityObservations s e.id).contains c)))) x.entityName]
          exact hnone
      · rintro ⟨x, hx, hnone⟩
        cases List.mem_cons.1 hx with
        | inl hxe =>
          rw [hxe] at hnone
          rw [he] at hnone
          cases hnone
        | inr hxr =>
          have hnone2 : getEntityByName (appendObservations s e.id (it.contents.filter
              (fun c => !((getEntityObservations s e.id).contains c)))) x.entityName
                = none := by
            rw [getEntityByName_congr (appendObservations_entities s e.id _) x.entityName]
            exact hnone
          obtain ⟨m, hm⟩ := (ih _).2 ⟨x, hxr, hnone2⟩
          exact ⟨m, by rw [hm]⟩

lemma addObservationsLoop_error_msg : ∀ (items : List ObsItem) (s : Store) (msg : String),
    addObservationsLoop s items = Except.error msg →
    ∃ it ∈ items, getEntityByName s it.entityName = none
      ∧ msg = "Entity with name " ++ it.entityName ++ " not found" := by
  intro items
  induction items with
  | nil =>
    intro s msg hmsg
    exact absurd hmsg (by simp [addObservationsLoop])
  | cons it rest ih =>
    intro s msg hmsg
    cases he : getEntityByName s it.entityName with
    | none =>
      rw [addObservationsLoop_cons_missing rest he] at hmsg
      simp only [Except.error.injEq] at hmsg
      exact ⟨it, by simp, he, hmsg.symm⟩
    | some e =>
      rw [addObservationsLoop_cons_found rest he] at hmsg
      cases hl : addObservationsLoop (appendObservations s e.id (it.contents.filter
          (fun c => !((getEntityObservations s e.id).contains c)))) rest with
      | ok p =>
        obtain ⟨s3, res⟩ := p
        rw [hl] at hmsg
        simp at hmsg
      | error m =>
        rw [hl] at hmsg
        simp only [Except.error.injEq] at hmsg
        obtain ⟨x, hx, hnone, hm⟩ := ih _ m hl
        refine ⟨x, by simp [hx], ?_, by rw [← hmsg]; exact hm⟩
        rw [← getEntityByName_congr
          (appendObservations_entities s e.id (it.contents.filter
            (fun c => !((getEntityObservations s e.id).contains c)))) x.entityName]
        exact hnone

/-- C3: addObservations succeeds exactly when every referenced entityName
exists; on failure the error names a missing entity, the whole batch is
rolled back and the store is unchanged; on a successful single-item call
the returned addedObservations is exactly the subset of the contents not
already stored for that entity, and precisely those rows are inserted. -/
theorem C3_add_observations_contract (s : Store) (items : List ObsItem) :
    (((addObservations s items).2).isOk = true
        ↔ ∀ it ∈ items, (getEntityByName s it.entityName).isSome = true)
    ∧ (∀ msg, (addObservations s items).2 = Except.error msg →
        (addObservations s items).1 = s
        ∧ ∃ it ∈ items, getEntityByName s it.entityName = none
            ∧ msg = "Entity with name " ++ it.entityName ++ " not found")
    ∧ (∀ (n : String) (cs : List String) (row : EntityRow),
        getEntityByName s n = some row →
        addObservations s [⟨n, cs⟩]
          = (appendObservations s row.id
              (cs.filter (fun c => !((getEntityObservations s row.id).contains c))),
             Except.ok [⟨n, cs.filter
               (fun c => !((getEntityObservations s row.id).contains c))⟩])) := by
  refine ⟨?_, ?_, ?_⟩
  · unfold addObservations
    cases hl : addObservationsLoop s items with
    | ok p =>
      obtain ⟨s2, res⟩ := p
      constructor
      · intro _ it hit
        by_contra hns
        have hnone : getEntityByName s it.entityName = none := by
          cases hlook : getEntityByName s it.entityName with
          | none => rfl
          | some e => rw [hlook] at hns; simp at hns
        obtain ⟨m, hm⟩ := (addObservationsLoop_error_iff items s).2 ⟨it, hit, hnone⟩
        rw [hm] at hl
        cases hl
      · intro _
        rfl
    | error m =>
      constructor
      · intro hfalse
        simp [Except.isOk, Except.toBool] at hfalse
      · intro hall
        exfalso
        obtain ⟨it, hit, hnone⟩ := (addObservationsLoop_error_iff items s).1 ⟨m, hl⟩
        have hsome := hall it hit
        rw [hnone] at hsome
        simp at hsome
  · intro msg hmsg
    refine ⟨C8_mutation_atomicity s items msg hmsg, ?_⟩
    unfold addObservations at hmsg
    cases hl : addObservationsLoop s items with
    | ok p =>
      obtain ⟨s2, res⟩ := p
      rw [hl] at hmsg
      simp at hmsg
    | error m =>
      rw [hl] at hmsg
      simp only [Except.error.injEq] at hmsg
      exact hmsg ▸ addObservationsLoop_error_msg items s m hl
  · intro n cs row h
    unfold addObservations
    rw [addObservationsLoop_cons_found [] h]
    rfl

theorem C3_add_observations_contract_witness :
    addObservations (createEntities emptyStore [⟨"A", "t", ["x"]⟩]).1 [⟨"A", ["x", "y"]⟩]
      = (appendObservations (createEntities emptyStore [⟨"A", "t", ["x"]⟩]).1 1 ["y"],
         Except.ok [⟨"A", ["y"]⟩]) :=
  (C3_add_observations_contract (createEntities emptyStore [⟨"A", "t", ["x"]⟩]).1
    [⟨"A", ["x", "y"]⟩]).2.2 "A" ["x", "y"] ⟨1, "A", "t"⟩ (by decide)


/- LIKE matcher facts used by the search claims. -/

lemma likeMatch_percent (t : List Char) : likeMatch ['%'] t = true := by
  rw [show likeMatch ['%'] t = (t.tails).any (fun u => likeMatch [] u) from by
    simp only [likeMatch]]
  rw [List.any_eq_true]
  exact ⟨[], (List.mem_tails [] t).2 List.nil_suffix, rfl⟩

lemma likeMatch_percent_percent (t : List Char) : likeMatch ['%', '%'] t = true := by
  rw [show likeMatch ['%', '%'] t = (t.tails).any (fun u => likeMatch ['%'] u) from by
    simp only [likeMatch]]
  rw [List.any_eq_true]
  exact ⟨t, (List.mem_tails t t).2 (List.suffix_refl t), likeMatch_percent t⟩

lemma ilike_empty_pattern (x : String) : ilike x ("%" ++ "" ++ "%") = true := by
  show likeMatch (("%" ++ "" ++ "%").data.map Char.toLower) (x.data.map Char.toLower) = true
  exact likeMatch_percent_percent (x.data.map Char.toLower)

lemma entityMatches_empty (ts : String → String → Bool) (s : Store) (e : EntityRow) :
    entityMatches ts s "" e = true := by
  simp only [entityMatches]
  rw [ilike_empty_pattern]
  rfl

lemma joinRelations_entities_nil {s : Store} (h : s.entities = []) :
    joinRelations s = [] := by
  unfold joinRelations
  rw [List.filterMap_eq_nil_iff]
  intro r hr
  have hf : findEntityById s r.from_entity_id = none := by
    unfold findEntityById
    rw [h]
    rfl
  rw [hf]

lemma name_mem_output_names {s : Store} {a : EntityRow} (ha : a ∈ s.entities) :
    a.name ∈ ((sortEntities s.entities).map (entityToOutput s)).map (fun e => e.name) := by
  rw [List.map_map]
  refine List.mem_map.2 ⟨a, ?_, rfl⟩
  unfold sortEntities
  exact (List.mem_insertionSort _).2 ha

/-- C2 counterexample: the empty query is wrapped into the ILIKE pattern of
two percent signs, which matches every entity name, so on a reachable
nonempty store searchNodes with the empty query returns the full entity
set instead of the empty graph the claim demands. -/
theorem C2_empty_query_counterexample :
    Reachable (createEntities emptyStore [⟨"A", "t", []⟩]).1
    ∧ searchNodes tsFalse (createEntities emptyStore [⟨"A", "t", []⟩]).1 ""
        = ⟨[⟨"A", "t", []⟩], []⟩ :=
  ⟨⟨[Op.createEntities [⟨"A", "t", []⟩]], rfl⟩, by decide⟩

/-- C2 amended: a query that matches no entity row yields the empty graph
(and the operation is total, so no error is possible); the empty query,
however, matches every entity through the percent-wrapped ILIKE pattern,
so searchNodes on the empty string returns the whole graph, coinciding
with readGraph. -/
theorem C2_search_nodes_empty_result :
    (∀ (ts : String → String → Bool) (s : Store) (q : String),
        (∀ e ∈ s.entities, entityMatches ts s q e = false) →
        searchNodes ts s q = ⟨[], []⟩)
    ∧ (∀ (ts : String → String → Bool) (s : Store),
        searchNodes ts s "" = readGraph s) := by
  constructor
  · intro ts s q h
    have hfil : s.entities.filter (entityMatches ts s q) = [] :=
      List.filter_eq_nil_iff.2 (fun e he => by rw [h e he]; exact Bool.false_ne_true)
    simp only [searchNodes, hfil]
    rfl
  · intro ts s
    have hfil : s.entities.filter (entityMatches ts s "") = s.entities :=
      List.filter_eq_self.2 (fun e _ => entityMatches_empty ts s e)
    simp only [searchNodes, readGraph, hfil]
    by_cases hnil : s.entities = []
    · rw [hnil, joinRelations_entities_nil hnil]
      rfl
    · have hlen : (((sortEntities s.entities).map (entityToOutput s)).map
          (fun e => e.name)).length ≠ 0 := by
        rw [List.length_map, List.length_map]
        unfold sortEntities
        rw [(List.perm_insertionSort _ s.entities).length_eq]
        intro hzero
        exact hnil (List.length_eq_zero.1 hzero)
      rw [if_neg hlen]
      have hrels : (joinRelations s).filter
          (fun r => (((sortEntities s.entities).map (entityToOutput s)).map
              (fun e => e.name)).contains r.fromName
            && (((sortEntities s.entities).map (entityToOutput s)).map
              (fun e => e.name)).contains r.toName) = joinRelations s := by
        refine List.filter_eq_self.2 (fun rel hrel => ?_)
        obtain ⟨a, ha, b, hb, hna, hnb⟩ := mem_joinRelations hrel
        rw [Bool.and_eq_true]
        exact ⟨List.elem_iff.2 (hna ▸ name_mem_output_names ha),
               List.elem_iff.2 (hnb ▸ name_mem_output_names hb)⟩
      rw [hrels]

theorem C2_search_nodes_empty_result_witness :
    searchNodes tsFalse (createEntities emptyStore [⟨"A", "t", []⟩]).1 "zzz"
      = ⟨[], []⟩ :=
  C2_search_nodes_empty_result.1 tsFalse (createEntities emptyStore [⟨"A", "t", []⟩]).1
    "zzz" (by decide)


/-- C7: the relation list searchNodes returns counts each rendered relation
exactly as often as the filter of the full readGraph relation list to those
relations whose two endpoint names both lie in the matched entity set: the
result is the induced subgraph on the matched entities. -/
theorem C7_search_induced_subgraph (ts : String → String → Bool) (s : Store)
    (q : String) (rel : Relation) :
    List.count rel (searchNodes ts s q).relations
      = List.count rel ((readGraph s).relations.filter
          (fun r =>
            ((searchNodes ts s q).entities.map (fun e => e.name)).contains r.fromName
            && ((searchNodes ts s q).entities.map (fun e => e.name)).contains r.toName)) := by
  simp only [searchNodes]
  by_cases hc : (((sortEntities (s.entities.filter (entityMatches ts s q))).map
      (entityToOutput s)).map (fun e => e.name)).length = 0
  · rw [if_pos hc]
    dsimp only
    have hfil : ∀ (l : List Relation), l.filter
        (fun r => (List.map (fun e => e.name) ([] : List Entity)).contains r.fromName
          && (List.map (fun e => e.name) ([] : List Entity)).contains r.toName) = [] :=
      fun l => List.filter_eq_nil_iff.2 (fun a _ => by simp)
    rw [hfil]
  · rw [if_neg hc]
    dsimp only
    have h1 := (List.perm_insertionSort relationLe
      ((joinRelations s).filter
        (fun r =>
          (((sortEntities (s.entities.filter (entityMatches ts s q))).map
            (entityToOutput s)).map (fun e => e.name)).contains r.fromName
          && (((sortEntities (s.entities.filter (entityMatches ts s q))).map
            (entityToOutput s)).map (fun e => e.name)).contains r.toName)))
    have h2 := ((List.perm_insertionSort relationLe (joinRelations s)).filter
        (fun r =>
          (((sortEntities (s.entities.filter (entityMatches ts s q))).map
            (entityToOutput s)).map (fun e => e.name)).contains r.fromName
          && (((sortEntities (s.entities.filter (entityMatches ts s q))).map
            (entityToOutput s)).map (fun e => e.name)).contains r.toName))
    exact (h1.count_eq rel).trans ((h2.count_eq rel).symm)


/- obsFor facts. -/

lemma obsFor_append (l1 l2 : List ObservationRow) (i : Nat) :
    obsFor (l1 ++ l2) i = obsFor l1 i ++ obsFor l2 i := by
  simp [obsFor, List.filter_append]

lemma obsFor_map_self (cs : List String) (i : Nat) :
    obsFor (cs.map (fun c => ⟨i, c⟩)) i = cs := by
  induction cs with
  | nil => rfl
  | cons c rest ih =>
    simp only [List.map_cons, obsFor, List.filter_cons] at ih ⊢
    simp only [beq_self_eq_true, if_true, List.map_cons]
    exact congrArg (List.cons c) ih

lemma obsFor_map_ne {i j : Nat} (h : i ≠ j) (cs : List String) :
    obsFor (cs.map (fun c => ⟨i, c⟩)) j = [] := by
  unfold obsFor
  rw [List.filter_eq_nil_iff.2 (fun o ho => ?_)]
  · rfl
  · obtain ⟨c, _, rfl⟩ := List.mem_map.1 ho
    simp [h]

lemma obsFor_sublist {l1 l2 : List ObservationRow} (h : List.Sublist l1 l2) (i : Nat) :
    List.Sublist (obsFor l1 i) (obsFor l2 i) :=
  (h.filter _).map _

/- Preservation of the store invariant by every operation. -/

lemma inv_emptyStore : Inv emptyStore := by
  refine ⟨?_, ?_, ?_⟩ <;> simp [emptyStore, obsFor, List.nodup_nil]

lemma inv_of_eq {s s2 : Store} (hinv : Inv s) (h1 : s2.entities = s.entities)
    (h2 : s2.observations = s.observations) (h3 : s2.nextId = s.nextId) : Inv s2 := by
  obtain ⟨a, b, c⟩ := hinv
  refine ⟨?_, ?_, ?_⟩
  · intro e he
    rw [h3]
    exact a e (h1 ▸ he)
  · intro o ho
    rw [h3]
    exact b o (h2 ▸ ho)
  · intro i
    rw [show obsFor s2.observations i = obsFor s.observations i from by rw [h2]]
    exact c i

lemma inv_shrink {s s2 : Store} (hinv : Inv s) (h1 : ∀ e ∈ s2.entities, e ∈ s.entities)
    (h2 : List.Sublist s2.observations s.observations)
    (h3 : s2.nextId = s.nextId) : Inv s2 := by
  obtain ⟨a, b, c⟩ := hinv
  refine ⟨fun e he => h3 ▸ a e (h1 e he),
          fun o ho => h3 ▸ b o (h2.subset ho),
          fun i => List.Nodup.sublist (obsFor_sublist h2 i) (c i)⟩

lemma obsFor_fresh {s : Store} (hb : ∀ o ∈ s.observations, o.entity_id < s.nextId) :
    obsFor s.observations s.nextId = [] := by
  unfold obsFor
  rw [List.filter_eq_nil_iff.2 (fun o ho => ?_)]
  · rfl
  · simp only [beq_iff_eq]
    intro hEq
    exact absurd (hEq ▸ hb o ho) (lt_irrefl s.nextId)

lemma inv_insertEntity {s : Store} {e : Entity} (hinv : Inv s)
    (hnodup : e.observations.Nodup) : Inv (insertEntity s e) := by
  obtain ⟨hb1, hb2, hn⟩ := hinv
  refine ⟨?_, ?_, ?_⟩
  · intro row hrow
    rcases List.mem_append.1 hrow with h | h
    · exact Nat.lt_succ_of_lt (hb1 row h)
    · rw [List.mem_singleton.1 h]
      exact Nat.lt_succ_self _
  · intro o ho
    rcases List.mem_append.1 ho with h | h
    · exact Nat.lt_succ_of_lt (hb2 o h)
    · obtain ⟨c, _, rfl⟩ := List.mem_map.1 h
      exact Nat.lt_succ_self _
  · intro i
    show (obsFor (s.observations ++ e.observations.map (fun c => ⟨s.nextId, c⟩)) i).Nodup
    rw [obsFor_append]
    by_cases hi : i = s.nextId
    · rw [hi, obsFor_map_self, obsFor_fresh hb2]
      exact hnodup
    · rw [obsFor_map_ne (fun hEq => hi hEq.symm)]
      rw [List.append_nil]
      exact hn i

lemma inv_appendObservations {s : Store} {e : EntityRow} (hinv : Inv s)
    (he : e ∈ s.entities) {cs : List String} (hnodup : cs.Nodup)
    (hnew : ∀ c ∈ cs, c ∉ obsFor s.observations e.id) :
    Inv (appendObservations s e.id cs) := by
  obtain ⟨a, b, c⟩ := hinv
  have hid : e.id < s.nextId := a e he
  refine ⟨fun x hx => a x hx, ?_, ?_⟩
  · intro o ho
    rcases List.mem_append.1 ho with h | h
    · exact b o h
    · obtain ⟨x, _, rfl⟩ := List.mem_map.1 h
      exact hid
  · intro i
    show (obsFor (s.observations ++ cs.map (fun x => ⟨e.id, x⟩)) i).Nodup
    rw [obsFor_append]
    by_cases hi : i = e.id
    · rw [hi, obsFor_map_self]
      exact (c e.id).append hnodup (fun x hx1 hx2 => hnew x hx2 hx1)
    · rw [obsFor_map_ne (fun hEq => hi hEq.symm)]
      rw [List.append_nil]
      exact c i

lemma inv_createEntitiesLoop : ∀ (items : List Entity) (s : Store), Inv s →
    (∀ e ∈ items, e.observations.Nodup) → Inv (createEntitiesLoop s items).1 := by
  intro items
  induction items with
  | nil => exact fun s h _ => h
  | cons e rest ih =>
    intro s hinv hgood
    cases he : getEntityByName s e.name with
    | some row =>
      rw [createEntitiesLoop_cons_existing rest he]
      exact ih s hinv (fun x hx => hgood x (by simp [hx]))
    | none =>
      rw [createEntitiesLoop_cons_new rest he]
      exact ih _ (inv_insertEntity hinv (hgood e (by simp)))
        (fun x hx => hgood x (by simp [hx]))

lemma inv_addObservationsLoop : ∀ (items : List ObsItem) (s : Store), Inv s →
    (∀ it ∈ items, it.contents.Nodup) →
    ∀ (s3 : Store) (res : List ObsResult),
      addObservationsLoop s items = Except.ok (s3, res) → Inv s3 := by
  intro items
  induction items with
  | nil =>
    intro s hinv _ s3 res hok
    have : s = s3 := by
      have heq : addObservationsLoop s [] = Except.ok (s, []) := rfl
      rw [heq] at hok
      simp at hok
      exact hok.1
    exact this ▸ hinv
  | cons it rest ih =>
    intro s hinv hgood s3 res hok
    cases he : getEntityByName s it.entityName with
    | none =>
      rw [addObservationsLoop_cons_missing rest he] at hok
      cases hok
    | some e =>
      rw [addObservationsLoop_cons_found rest he] at hok
      have hmem := (mem_entities_of_getEntityByName he).1
      have hinv2 : Inv (appendObservations s e.id (it.contents.filter
          (fun c => !((getEntityObservations s e.id).contains c)))) := by
        refine inv_appendObservations hinv hmem
          (List.Nodup.filter _ (hgood it (by simp))) ?_
        intro c hc
        have hpred := (List.mem_filter.1 hc).2
        intro hcmem
        have : (getEntityObservations s e.id).contains c = true :=
          List.elem_iff.2 hcmem
        rw [this] at hpred
        simp at hpred
      cases hl : addObservationsLoop (appendObservations s e.id (it.contents.filter
          (fun c => !((getEntityObservations s e.id).contains c)))) rest with
      | ok p =>
        obtain ⟨s4, res4⟩ := p
        rw [hl] at hok
        simp only [Except.ok.injEq, Prod.mk.injEq] at hok
        exact hok.1 ▸ ih _ hinv2 (fun x hx => hgood x (by simp [hx])) s4 res4 hl
      | error m =>
        rw [hl] at hok
        cases hok

lemma createRelationsLoop_preserves : ∀ (items : List Relation) (s : Store),
    ((createRelationsLoop s items).1).entities = s.entities
    ∧ ((createRelationsLoop s items).1).observations = s.observations
    ∧ ((createRelationsLoop s items).1).nextId = s.nextId := by
  intro items
  induction items with
  | nil => exact fun s => ⟨rfl, rfl, rfl⟩
  | cons r rest ih =>
    intro s
    cases hf : getEntityByName s r.fromName with
    | none =>
      rw [createRelationsLoop_cons_missing rest (Or.inl hf)]
      exact ih s
    | some fe =>
      cases ht : getEntityByName s r.toName with
      | none =>
        rw [createRelationsLoop_cons_missing rest (Or.inr ht)]
        exact ih s
      | some te =>
        by_cases h0 : tripleCount s fe.id te.id r.relationType = 0
        · rw [createRelationsLoop_cons_insert rest hf ht h0]
          exact ih (insertRelation s fe.id te.id r.relationType)
        · rw [createRelationsLoop_cons_dup rest hf ht h0]
          exact ih s

lemma deleteEntities_struct : ∀ (names : List String) (s : Store),
    (∀ e ∈ (deleteEntities s names).entities, e ∈ s.entities)
    ∧ List.Sublist (deleteEntities s names).observations s.observations
    ∧ (deleteEntities s names).nextId = s.nextId := by
  intro names
  induction names with
  | nil => exact fun s => ⟨fun e he => he, List.Sublist.refl _, rfl⟩
  | cons m rest ih =>
    intro s
    rw [deleteEntities_cons]
    obtain ⟨i1, i2, i3⟩ := ih (deleteEntityByName s m)
    refine ⟨fun e he => ?_, ?_, ?_⟩
    · exact (deleteEntityByName_shrink s m).1 e (i1 e he)
    · exact i2.trans (List.filter_sublist s.observations)
    · exact i3

lemma delObsFold_struct (i : Nat) : ∀ (cs : List String) (s2 : Store),
    ((cs.foldl (fun s3 content =>
        { s3 with
          observations :=
            s3.observations.filter (fun o => !(o.entity_id == i && o.content == content)) })
        s2).entities = s2.entities)
    ∧ List.Sublist
        ((cs.foldl (fun s3 content =>
          { s3 with
            observations :=
              s3.observations.filter (fun o => !(o.entity_id == i && o.content == content)) })
          s2).observations) s2.observations
    ∧ ((cs.foldl (fun s3 content =>
        { s3 with
          observations :=
            s3.observations.filter (fun o => !(o.entity_id == i && o.content == content)) })
        s2).nextId = s2.nextId) := by
  intro cs
  induction cs with
  | nil => exact fun s2 => ⟨rfl, List.Sublist.refl _, rfl⟩
  | cons c rest ih =>
    intro s2
    rw [List.foldl_cons]
    obtain ⟨i1, i2, i3⟩ := ih { s2 with
      observations :=
        s2.observations.filter (fun o => !(o.entity_id == i && o.content == c)) }
    exact ⟨i1, i2.trans (List.filter_sublist s2.observations), i3⟩

lemma deleteObservations_struct : ∀ (items : List DelObsItem) (s : Store),
    ((deleteObservations s items).entities = s.entities)
    ∧ List.Sublist (deleteObservations s items).observations s.observations
    ∧ ((deleteObservations s items).nextId = s.nextId) := by
  intro items
  induction items with
  | nil => exact fun s => ⟨rfl, List.Sublist.refl _, rfl⟩
  | cons d rest ih =>
    intro s
    have hstep : ((deleteObservationsItem s d).entities = s.entities)
        ∧ List.Sublist (deleteObservationsItem s d).observations s.observations
        ∧ ((deleteObservationsItem s d).nextId = s.nextId) := by
      unfold deleteObservationsItem
      cases he : getEntityByName s d.entityName with
      | none => exact ⟨rfl, List.Sublist.refl _, rfl⟩
      | some e => exact delObsFold_struct e.id d.observations s
    obtain ⟨s1e, s1o, s1n⟩ := hstep
    obtain ⟨i1, i2, i3⟩ := ih (deleteObservationsItem s d)
    exact ⟨i1.trans s1e, i2.trans s1o, i3.trans s1n⟩

lemma deleteRelations_struct : ∀ (items : List Relation) (s : Store),
    ((deleteRelations s items).entities = s.entities)
    ∧ ((deleteRelations s items).observations = s.observations)
    ∧ ((deleteRelations s items).nextId = s.nextId) := by
  intro items
  induction items with
  | nil => exact fun s => ⟨rfl, rfl, rfl⟩
  | cons r rest ih =>
    intro s
    have hstep : ((deleteRelationItem s r).entities = s.entities)
        ∧ ((deleteRelationItem s r).observations = s.observations)
        ∧ ((deleteRelationItem s r).nextId = s.nextId) := by
      unfold deleteRelationItem
      cases hf : getEntityByName s r.fromName with
      | none => exact ⟨rfl, rfl, rfl⟩
      | some fe =>
        cases ht : getEntityByName s r.toName with
        | none => exact ⟨rfl, rfl, rfl⟩
        | some te => exact ⟨rfl, rfl, rfl⟩
    obtain ⟨s1e, s1o, s1n⟩ := hstep
    obtain ⟨i1, i2, i3⟩ := ih (deleteRelationItem s r)
    exact ⟨i1.trans s1e, i2.trans s1o, i3.trans s1n⟩

lemma inv_applyOp {s : Store} (hinv : Inv s) (op : Op) (hgood : GoodOp op) :
    Inv (applyOp s op) := by
  cases op with
  | createEntities items => exact inv_createEntitiesLoop items s hinv hgood
  | createRelations items =>
    obtain ⟨h1, h2, h3⟩ := createRelationsLoop_preserves items s
    exact inv_of_eq hinv h1 h2 h3
  | addObservations items =>
    show Inv (addObservations s items).1
    unfold addObservations
    cases hl : addObservationsLoop s items with
    | ok p =>
      obtain ⟨s3, res⟩ := p
      exact inv_addObservationsLoop items s hinv hgood s3 res hl
    | error m => exact hinv
  | deleteEntities names =>
    obtain ⟨h1, h2, h3⟩ := deleteEntities_struct names s
    exact inv_shrink hinv h1 h2 h3
  | deleteObservations items =>
    obtain ⟨h1, h2, h3⟩ := deleteObservations_struct items s
    exact inv_shrink hinv (fun e he => h1 ▸ he) h2 h3
  | deleteRelations items =>
    obtain ⟨h1, h2, h3⟩ := deleteRelations_struct items s
    exact inv_of_eq hinv h1 h2 h3

lemma inv_runOps : ∀ (ops : List Op) (s : Store), Inv s → (∀ op ∈ ops, GoodOp op) →
    Inv (runOps s ops) := by
  intro ops
  induction ops with
  | nil => exact fun s h _ => h
  | cons op rest ih =>
    intro s hinv hgood
    exact ih (applyOp s op) (inv_applyOp hinv op (hgood op (by simp)))
      (fun x hx => hgood x (by simp [hx]))

lemma readGraph_obs_nodup {s : Store} (hinv : Inv s) :
    ∀ e ∈ (readGraph s).entities, e.observations.Nodup := by
  intro e he
  obtain ⟨row, hrow, hout⟩ := mem_readGraph_entities he
  rw [hout]
  show (getEntityObservations s row.id).Nodup
  rw [getEntityObservations_eq_obsFor]
  exact hinv.2.2 row.id

lemma addObs_single_found {s : Store} {n : String} {e : EntityRow}
    (he : getEntityByName s n = some e) (cs : List String) :
    addObservations s [⟨n, cs⟩]
      = (appendObservations s e.id
          (cs.filter (fun c => !((getEntityObservations s e.id).contains c))),
         Except.ok [⟨n, cs.filter
           (fun c => !((getEntityObservations s e.id).contains c))⟩]) := by
  unfold addObservations
  rw [addObservationsLoop_cons_found [] he]
  rfl

lemma addObs_single_repeat {s : Store} {n : String} {cs : List String} {s1 : Store}
    {res : List ObsResult}
    (h : addObservations s [⟨n, cs⟩] = (s1, Except.ok res)) :
    addObservations s1 [⟨n, cs⟩] = (s1, Except.ok [⟨n, []⟩]) := by
  cases he : getEntityByName s n with
  | none =>
    unfold addObservations at h
    rw [addObservationsLoop_cons_missing [] he] at h
    simp at h
  | some e =>
    have hs := addObs_single_found he cs
    have hpair := h.symm.trans hs
    have hs1 : s1 = appendObservations s e.id
        (cs.filter (fun c => !((getEntityObservations s e.id).contains c))) :=
      congrArg Prod.fst hpair
    subst hs1
    have he1 : getEntityByName (appendObservations s e.id
        (cs.filter (fun c => !((getEntityObservations s e.id).contains c)))) n
          = some e := by
      rw [getEntityByName_congr (appendObservations_entities s e.id _) n]
      exact he
    have hobs : getEntityObservations (appendObservations s e.id
        (cs.filter (fun c => !((getEntityObservations s e.id).contains c)))) e.id
          = getEntityObservations s e.id
            ++ cs.filter (fun c => !((getEntityObservations s e.id).contains c)) := by
      rw [getEntityObservations_eq_obsFor, getEntityObservations_eq_obsFor]
      show obsFor (s.observations ++ (cs.filter
        (fun c => !((getEntityObservations s e.id).contains c))).map
          (fun c => ⟨e.id, c⟩)) e.id = _
      rw [obsFor_append, obsFor_map_self]
      rfl
    have hfil : cs.filter (fun c => !((getEntityObservations (appendObservations s e.id
        (cs.filter (fun c => !((getEntityObservations s e.id).contains c)))) e.id).contains
          c)) = [] := by
      rw [hobs]
      refine List.filter_eq_nil_iff.2 (fun c hc => ?_)
      have hmem : c ∈ getEntityObservations s e.id
          ++ cs.filter (fun x => !((getEntityObservations s e.id).contains x)) := by
        by_cases hcex : c ∈ getEntityObservations s e.id
        · exact List.mem_append.2 (Or.inl hcex)
        · refine List.mem_append.2 (Or.inr (List.mem_filter.2 ⟨hc, ?_⟩))
          have hfalse : (getEntityObservations s e.id).contains c = false := by
            cases hcon : (getEntityObservations s e.id).contains c with
            | true => exact absurd (List.elem_iff.1 hcon) hcex
            | false => rfl
          rw [hfalse]
          rfl
      have hcon : ((getEntityObservations s e.id
          ++ cs.filter (fun x => !((getEntityObservations s e.id).contains x))).contains c)
            = true := List.elem_iff.2 hmem
      rw [hcon]
      simp
    have h2 := addObs_single_found he1 cs
    rw [hfil] at h2
    rw [h2]
    have hnil : appendObservations (appendObservations s e.id
        (cs.filter (fun c => !((getEntityObservations s e.id).contains c)))) e.id []
          = appendObservations s e.id
            (cs.filter (fun c => !((getEntityObservations s e.id).contains c))) := by
      unfold appendObservations
      rw [List.map_nil, List.append_nil]
    rw [hnil]

/-- C1 counterexample: createEntities inserts the observation list of a new
entity row by row with no dedup check, so one item whose observations list
repeats a content string stores it twice, and readGraph of the resulting
reachable store lists the same content string twice for that entity. -/
theorem C1_duplicate_content_counterexample :
    Reachable (createEntities emptyStore [⟨"A", "t", ["x", "x"]⟩]).1
    ∧ (readGraph (createEntities emptyStore [⟨"A", "t", ["x", "x"]⟩]).1).entities
        = [⟨"A", "t", ["x", "x"]⟩]
    ∧ ((readGraph (createEntities emptyStore [⟨"A", "t", ["x", "x"]⟩]).1).entities.map
        (fun e => List.count "x" e.observations)) = [2] :=
  ⟨⟨[Op.createEntities [⟨"A", "t", ["x", "x"]⟩]], rfl⟩, by decide, by decide⟩

/-- C1 amended: provided every createEntities item has a duplicate-free
observations list and every addObservations item a duplicate-free contents
list, each distinct observation content is stored at most once per entity
in every reachable state, so readGraph lists it exactly once; and re-adding
contents identical to stored observations is a no-op: a second identical
single-item addObservations call returns addedObservations = [] and leaves
the store unchanged (this second part needs no proviso). -/
theorem C1_observation_set_semantics :
    (∀ ops : List Op, (∀ op ∈ ops, GoodOp op) →
        ∀ e ∈ (readGraph (runOps emptyStore ops)).entities, e.observations.Nodup)
    ∧ (∀ (s : Store) (n : String) (cs : List String) (s1 : Store)
        (res : List ObsResult),
        addObservations s [⟨n, cs⟩] = (s1, Except.ok res) →
        addObservations s1 [⟨n, cs⟩] = (s1, Except.ok [⟨n, []⟩])) :=
  ⟨fun ops hgood => readGraph_obs_nodup (inv_runOps ops emptyStore inv_emptyStore hgood),
   fun _ _ _ _ _ h => addObs_single_repeat h⟩

theorem C1_observation_set_semantics_witness :
    addObservations
        (addObservations (createEntities emptyStore [⟨"B", "t", []⟩]).1 [⟨"B", ["y"]⟩]).1
        [⟨"B", ["y"]⟩]
      = ((addObservations (createEntities emptyStore [⟨"B", "t", []⟩]).1
            [⟨"B", ["y"]⟩]).1,
         Except.ok [⟨"B", []⟩]) :=
  C1_observation_set_semantics.2 (createEntities emptyStore [⟨"B", "t", []⟩]).1 "B" ["y"]
    (addObservations (createEntities emptyStore [⟨"B", "t", []⟩]).1 [⟨"B", ["y"]⟩]).1
    [⟨"B", ["y"]⟩] (by rfl)

end MemPG
